import Mathlib

/-!
Verification of the AA-Video-Downloader backend logic.

The repository contains three small Python HTTP servers
(`app.py`, `backend.py`, `simple_backend.py`).  This file gives a shallow
embedding of the pure request-shaping logic of those servers
(format normalization, quality-token parsing, video-id extraction,
fallback-URL templating, response assembly) and proves properties of it.

Python dictionaries coming from the extraction oracle are modelled as
records with `Option` fields (a `none` field models an absent key or a
`None` value); raised exceptions are modelled as `Option`/`Except`
results; raw strings are processed as `List Char`.
-/

namespace AAVD

/-- A raw format record as produced by the extraction oracle and consumed by
the normalizers (`backend.py::extract_formats`, `app.py::get_video_info`).
`height` models `fmt.get('height', 0)` collapsed to a `Nat` (`0` stands for
an absent key, a `None` value, or a literal `0`, all of which are falsy in
Python); the remaining fields model `fmt.get(...)` with `none` for an
absent key. -/
structure Fmt where
  format_id : Option String
  vcodec : Option String
  height : Nat
  ext : Option String
  filesize : Option Int
  quality : Option String
  url : Option String
deriving Repr, DecidableEq

/-- The record appended by `backend.py::extract_formats` for a surviving
format `f` (the dict literal at backend.py lines 135-141). -/
def beOut (f : Fmt) : Fmt :=
  { format_id := some (f.format_id.getD "")
    vcodec := none
    height := f.height
    ext := some (f.ext.getD "mp4")
    filesize := some (f.filesize.getD 0)
    quality := some (toString f.height ++ "p")
    url := none }

/-- The record appended by `app.py::get_video_info` for a surviving format
`f` (the dict literal at app.py lines 67-73; `filesize` and `format_id`
are `fmt.get(...)` without a default there). -/
def appOut (f : Fmt) : Fmt :=
  { format_id := f.format_id
    vcodec := none
    height := f.height
    ext := some (f.ext.getD "mp4")
    filesize := f.filesize
    quality := some (toString f.height ++ "p")
    url := none }

/-- The shared dedup loop of both normalizers: skip records whose
`vcodec` equals the string `'none'`; keep the first record of each nonzero
height (`seen_qualities`); emit `mk f` for each survivor. -/
def collectFormats (mk : Fmt → Fmt) : List Fmt → List Nat → List Fmt
  | [], _ => []
  | f :: rest, seen =>
    if f.vcodec ≠ some "none" then
      if f.height ≠ 0 ∧ f.height ∉ seen then
        mk f :: collectFormats mk rest (f.height :: seen)
      else
        collectFormats mk rest seen
    else
      collectFormats mk rest seen

/-- The comparison used by `formats.sort(key=lambda x: x['height'], reverse=True)`:
records are ordered by descending height. -/
def heightGe (a b : Fmt) : Prop := b.height ≤ a.height

instance : DecidableRel heightGe := fun a b => Nat.decLe b.height a.height

instance : IsTotal Fmt heightGe := ⟨fun a b => Nat.le_total b.height a.height⟩

instance : IsTrans Fmt heightGe := ⟨fun _ _ _ h h' => Nat.le_trans h' h⟩

/-- `backend.py::extract_formats`: dedup, sort by height descending,
return the top 5 qualities. -/
def extract_formats (formats : List Fmt) : List Fmt :=
  ((collectFormats beOut formats []).insertionSort heightGe).take 5

/-- The format list built by `app.py::get_video_info` (lines 60-77 and the
`formats[:10]` cap at line 87): same loop, cap 10, `appOut`-shaped records. -/
def appInfoFormats (formats : List Fmt) : List Fmt :=
  ((collectFormats appOut formats []).insertionSort heightGe).take 10

/-- A record is audio-only when the oracle reports the video codec as the
literal string `'none'`. -/
def audioOnly (f : Fmt) : Prop := f.vcodec = some "none"

theorem collectFormats_mem {mk : Fmt → Fmt} :
    ∀ (l : List Fmt) (seen : List Nat) (r : Fmt),
      r ∈ collectFormats mk l seen →
      ∃ f, f ∈ l ∧ f.vcodec ≠ some "none" ∧ f.height ≠ 0 ∧ r = mk f := by
  intro l
  induction l with
  | nil => intro seen r h; simp [collectFormats] at h
  | cons f rest ih =>
    intro seen r h
    by_cases hv : f.vcodec ≠ some "none"
    · by_cases hh : f.height ≠ 0 ∧ f.height ∉ seen
      · simp only [collectFormats, if_pos hv, if_pos hh] at h
        rcases List.mem_cons.mp h with h1 | h2
        · exact ⟨f, List.mem_cons_self .., hv, hh.1, h1⟩
        · obtain ⟨g, hg, h3, h4, h5⟩ := ih _ r h2
          exact ⟨g, List.mem_cons_of_mem _ hg, h3, h4, h5⟩
      · simp only [collectFormats, if_pos hv, if_neg hh] at h
        obtain ⟨g, hg, h3, h4, h5⟩ := ih _ r h
        exact ⟨g, List.mem_cons_of_mem _ hg, h3, h4, h5⟩
    · simp only [collectFormats, if_neg hv] at h
      obtain ⟨g, hg, h3, h4, h5⟩ := ih _ r h
      exact ⟨g, List.mem_cons_of_mem _ hg, h3, h4, h5⟩

theorem collectFormats_not_seen {mk : Fmt → Fmt} (hmk : ∀ f, (mk f).height = f.height) :
    ∀ (l : List Fmt) (seen : List Nat) (r : Fmt),
      r ∈ collectFormats mk l seen → r.height ∉ seen := by
  intro l
  induction l with
  | nil => intro seen r h; simp [collectFormats] at h
  | cons f rest ih =>
    intro seen r h
    by_cases hv : f.vcodec ≠ some "none"
    · by_cases hh : f.height ≠ 0 ∧ f.height ∉ seen
      · simp only [collectFormats, if_pos hv, if_pos hh] at h
        rcases List.mem_cons.mp h with h1 | h2
        · rw [h1, hmk f]; exact hh.2
        · have hns := ih (f.height :: seen) r h2
          exact fun hs => hns (List.mem_cons_of_mem _ hs)
      · simp only [collectFormats, if_pos hv, if_neg hh] at h
        exact ih seen r h
    · simp only [collectFormats, if_neg hv] at h
      exact ih seen r h

theorem collectFormats_pairwise {mk : Fmt → Fmt} (hmk : ∀ f, (mk f).height = f.height) :
    ∀ (l : List Fmt) (seen : List Nat),
      (collectFormats mk l seen).Pairwise (fun a b => a.height ≠ b.height) := by
  intro l
  induction l with
  | nil => intro seen; simp [collectFormats]
  | cons f rest ih =>
    intro seen
    by_cases hv : f.vcodec ≠ some "none"
    · by_cases hh : f.height ≠ 0 ∧ f.height ∉ seen
      · simp only [collectFormats, if_pos hv, if_pos hh]
        refine List.Pairwise.cons ?_ (ih _)
        intro b hb he
        have hbs := collectFormats_not_seen hmk rest (f.height :: seen) b hb
        rw [hmk f] at he
        exact hbs (he ▸ List.mem_cons_self _ _)
      · simp only [collectFormats, if_pos hv, if_neg hh]; exact ih _
    · simp only [collectFormats, if_neg hv]; exact ih _

theorem collectFormats_all_audio {mk : Fmt → Fmt} :
    ∀ (l : List Fmt) (seen : List Nat), (∀ f ∈ l, audioOnly f) →
      collectFormats mk l seen = [] := by
  intro l
  induction l with
  | nil => intro seen _; rfl
  | cons f rest ih =>
    intro seen hall
    have hv : ¬f.vcodec ≠ some "none" := by
      have := hall f (List.mem_cons_self ..); simpa [audioOnly] using this
    simp only [collectFormats, if_neg hv]
    exact ih seen fun g hg => hall g (List.mem_cons_of_mem _ hg)

/-- The three structural properties shared by both normalizer variants. -/
theorem normalizer_spec (mk : Fmt → Fmt) (hmk : ∀ f, (mk f).height = f.height)
    (cap : Nat) (formats : List Fmt) :
    (((collectFormats mk formats []).insertionSort heightGe).take cap).Pairwise
        (fun a b => b.height < a.height) ∧
    (∀ r ∈ ((collectFormats mk formats []).insertionSort heightGe).take cap,
        ∃ f, f ∈ formats ∧ f.vcodec ≠ some "none" ∧ f.height ≠ 0 ∧ r = mk f) ∧
    (((collectFormats mk formats []).insertionSort heightGe).take cap).length ≤ cap := by
  have hperm := List.perm_insertionSort heightGe (collectFormats mk formats [])
  have hsorted := List.sorted_insertionSort heightGe (collectFormats mk formats [])
  have hpw : (collectFormats mk formats []).Pairwise (fun a b => a.height ≠ b.height) :=
    collectFormats_pairwise hmk formats []
  have hpw2 : ((collectFormats mk formats []).insertionSort heightGe).Pairwise
      (fun a b => a.height ≠ b.height) := by
    refine (List.Perm.pairwise_iff ?_ hperm).mpr hpw
    intro a b h he; exact h he.symm
  refine ⟨?_, ?_, ?_⟩
  · refine List.Pairwise.sublist (List.take_sublist cap _) ?_
    refine (hsorted.and hpw2).imp ?_
    intro a b hab
    exact Nat.lt_of_le_of_ne hab.1 fun he => hab.2 he.symm
  · intro r hr
    have hr2 : r ∈ (collectFormats mk formats []).insertionSort heightGe :=
      List.take_subset cap _ hr
    exact collectFormats_mem formats [] r ((List.mem_insertionSort heightGe).mp hr2)
  · rw [List.length_take]
    exact min_le_left _ _

theorem collectFormats_id {mk : Fmt → Fmt} :
    ∀ (l : List Fmt) (seen : List Nat),
      (∀ r ∈ l, r.vcodec ≠ some "none" ∧ r.height ≠ 0 ∧ mk r = r ∧ r.height ∉ seen) →
      l.Pairwise (fun a b => a.height ≠ b.height) →
      collectFormats mk l seen = l := by
  intro l
  induction l with
  | nil => intro seen _ _; rfl
  | cons r rest ih =>
    intro seen hall hpw
    obtain ⟨hv, hh, hmkr, hseen⟩ := hall r (List.mem_cons_self ..)
    simp only [collectFormats, if_pos hv, if_pos (show r.height ≠ 0 ∧ r.height ∉ seen from ⟨hh, hseen⟩)]
    rw [hmkr, ih (r.height :: seen) ?_ hpw.of_cons]
    intro b hb
    obtain ⟨h1, h2, h3, h4⟩ := hall b (List.mem_cons_of_mem _ hb)
    refine ⟨h1, h2, h3, ?_⟩
    intro hmem
    rcases List.mem_cons.mp hmem with he | hs
    · exact List.rel_of_pairwise_cons hpw hb he.symm
    · exact h4 hs

/-- Applying a normalizer variant to its own output returns the output
unchanged. -/
theorem normalizer_idem (mk : Fmt → Fmt)
    (hmk : ∀ f, (mk f).height = f.height)
    (hidem : ∀ f, mk (mk f) = mk f)
    (hvc : ∀ f, (mk f).vcodec = none)
    (cap : Nat) (formats : List Fmt) :
    ((collectFormats mk (((collectFormats mk formats []).insertionSort heightGe).take cap)
        []).insertionSort heightGe).take cap =
      ((collectFormats mk formats []).insertionSort heightGe).take cap := by
  obtain ⟨hdesc, horig, hlen⟩ := normalizer_spec mk hmk cap formats
  have hid : collectFormats mk
      (((collectFormats mk formats []).insertionSort heightGe).take cap) [] =
      ((collectFormats mk formats []).insertionSort heightGe).take cap := by
    refine collectFormats_id _ [] ?_ (hdesc.imp ?_)
    · intro r hr
      obtain ⟨f, _, _, hf0, hrf⟩ := horig r hr
      refine ⟨?_, ?_, ?_, List.not_mem_nil _⟩
      · rw [hrf, hvc f]; exact fun h => Option.noConfusion h
      · rw [hrf, hmk f]; exact hf0
      · rw [hrf, hidem f]
    · intro a b hab
      exact fun he => Nat.ne_of_lt hab he.symm
  rw [hid]
  have hsorted : (((collectFormats mk formats []).insertionSort heightGe).take
      cap).Sorted heightGe := by
    refine hdesc.imp ?_
    intro a b hab
    exact Nat.le_of_lt hab
  rw [List.Sorted.insertionSort_eq hsorted, List.take_of_length_le hlen]

/-- C1: for every input sequence of format records, each Format Normalizer
variant (`backend.py::extract_formats`, cap 5; `app.py::get_video_info`,
cap 10) yields a list strictly descending by height (hence with no two
records of equal height), in which every record derives from a non
audio-only input record of nonzero height, of length at most the cap;
an empty input yields an empty output and an all-audio input yields an
empty output, neither being an error. -/
theorem c1_format_normalizer (formats : List Fmt) :
    ((extract_formats formats).Pairwise (fun a b => b.height < a.height) ∧
      (∀ r ∈ extract_formats formats,
        ∃ f, f ∈ formats ∧ ¬audioOnly f ∧ f.height ≠ 0 ∧ r = beOut f) ∧
      (extract_formats formats).length ≤ 5) ∧
    ((appInfoFormats formats).Pairwise (fun a b => b.height < a.height) ∧
      (∀ r ∈ appInfoFormats formats,
        ∃ f, f ∈ formats ∧ ¬audioOnly f ∧ f.height ≠ 0 ∧ r = appOut f) ∧
      (appInfoFormats formats).length ≤ 10) ∧
    (extract_formats ([] : List Fmt) = [] ∧ appInfoFormats ([] : List Fmt) = []) ∧
    ((∀ f ∈ formats, audioOnly f) →
      extract_formats formats = [] ∧ appInfoFormats formats = []) := by
  refine ⟨normalizer_spec beOut (fun f => rfl) 5 formats,
    normalizer_spec appOut (fun f => rfl) 10 formats, ⟨rfl, rfl⟩, ?_⟩
  intro hall
  constructor
  · show ((collectFormats beOut formats []).insertionSort heightGe).take 5 = []
    rw [collectFormats_all_audio formats [] hall]; rfl
  · show ((collectFormats appOut formats []).insertionSort heightGe).take 10 = []
    rw [collectFormats_all_audio formats [] hall]; rfl

/-- Witness for C1: a single audio-only record normalizes to the empty
list in both variants. -/
theorem c1_format_normalizer_witness :
    extract_formats [⟨some "140", some "none", 0, some "m4a", none, none, none⟩] = [] ∧
    appInfoFormats [⟨some "140", some "none", 0, some "m4a", none, none, none⟩] = [] :=
  (c1_format_normalizer [⟨some "140", some "none", 0, some "m4a", none, none, none⟩]).2.2.2
    (by intro f hf; simp only [List.mem_singleton] at hf; rw [hf]; rfl)

/-- C4: the Format Normalizer is idempotent: applying either variant to a
sequence that is already one of its outputs returns that sequence
unchanged, record for record and field for field. -/
theorem c4_normalizer_idempotent (formats : List Fmt) :
    extract_formats (extract_formats formats) = extract_formats formats ∧
    appInfoFormats (appInfoFormats formats) = appInfoFormats formats :=
  ⟨normalizer_idem beOut (fun _ => rfl) (fun _ => rfl) (fun _ => rfl) 5 formats,
   normalizer_idem appOut (fun _ => rfl) (fun _ => rfl) (fun _ => rfl) 10 formats⟩

/-- All digit characters of a token, in order: models
`''.join(filter(str.isdigit, quality))` (app.py lines 116 and 185).
For ASCII tokens Python `str.isdigit` and `Char.isDigit` agree. -/
def digitsOf (q : String) : String := String.mk (q.data.filter Char.isDigit)

/-- The quality-to-selector mapping of `app.py::download_video`
(lines 106-122): a yt-dlp format-selector expression plus the target file
extension. -/
def download_quality (quality : String) : String × String :=
  if quality = "audio" ∨ quality = "mp3" then
    ("bestaudio/best", "mp3")
  else if quality = "best" ∨ quality = "worst" then
    (quality, "mp4")
  else
    (if digitsOf quality ≠ "" then "best[height<=" ++ digitsOf quality ++ "]"
     else "best", "mp4")

/-- The quality-to-selector mapping of `app.py::stream_video_url`
(lines 180-186), which computes only the selector expression. -/
def stream_quality (quality : String) : String :=
  if quality = "audio" ∨ quality = "mp3" then "bestaudio/best"
  else if quality = "best" ∨ quality = "worst" then quality
  else if digitsOf quality ≠ "" then "best[height<=" ++ digitsOf quality ++ "]"
  else "best"

/-- The quality-to-selector mapping of
`backend.py::VideoDownloadHandler.get_download_url` (line 110), which
embeds the raw token when it is not `best`/`worst`. -/
def backend_quality (quality : String) : String :=
  if quality = "best" ∨ quality = "worst" then quality
  else "best[height<=" ++ quality ++ "]"

/-- Modelled from the claim's words: the leading (first maximal) run of
digit characters of the token. -/
def leadingDigitRun (q : String) : String :=
  String.mk ((q.data.dropWhile fun c => !c.isDigit).takeWhile Char.isDigit)

/-- Counterexample to C2 as stated: on the token `720p60` the code embeds
the concatenation of all digit characters (`72060`), not the leading digit
run (`720`). -/
theorem c2_counterexample :
    download_quality "720p60" = ("best[height<=72060]", "mp4") ∧
    leadingDigitRun "720p60" = "720" ∧
    download_quality "720p60" ≠
      ("best[height<=" ++ leadingDigitRun "720p60" ++ "]", "mp4") := by
  refine ⟨?_, ?_, ?_⟩ <;> decide

/-- C2 (amended): the Quality Selector maps `audio`/`mp3` to the
audio-only selector with extension mp3, `best`/`worst` to themselves with
extension mp4, and any other token to `best[height<=N]` where N is the
concatenation of all digit characters of the token in order, degrading to
the unconstrained `best` when the token has no digits; no input errors;
and the stream endpoint computes the same selector expression. -/
theorem c2_quality_selector (q : String) :
    (q = "audio" ∨ q = "mp3" → download_quality q = ("bestaudio/best", "mp3")) ∧
    (q = "best" ∨ q = "worst" → download_quality q = (q, "mp4")) ∧
    (q ≠ "audio" → q ≠ "mp3" → q ≠ "best" → q ≠ "worst" →
      (digitsOf q = "" → download_quality q = ("best", "mp4")) ∧
      (digitsOf q ≠ "" →
        download_quality q = ("best[height<=" ++ digitsOf q ++ "]", "mp4"))) ∧
    stream_quality q = (download_quality q).1 := by
  refine ⟨?_, ?_, ?_, ?_⟩
  · rintro (rfl | rfl) <;> rfl
  · rintro (rfl | rfl) <;> rfl
  · intro h1 h2 h3 h4
    have ha : ¬(q = "audio" ∨ q = "mp3") := by
      rintro (h | h); exacts [h1 h, h2 h]
    have hb : ¬(q = "best" ∨ q = "worst") := by
      rintro (h | h); exacts [h3 h, h4 h]
    constructor
    · intro hd
      simp only [download_quality, if_neg ha, if_neg hb]
      rw [if_neg (show ¬digitsOf q ≠ "" from fun h => h hd)]
    · intro hd
      simp only [download_quality, if_neg ha, if_neg hb]
      rw [if_pos hd]
  · by_cases ha : q = "audio" ∨ q = "mp3"
    · simp only [stream_quality, download_quality, if_pos ha]
    · by_cases hb : q = "best" ∨ q = "worst"
      · simp only [stream_quality, download_quality, if_neg ha, if_pos hb]
      · by_cases hd : digitsOf q ≠ ""
        · simp only [stream_quality, download_quality, if_neg ha, if_neg hb, if_pos hd]
        · simp only [stream_quality, download_quality, if_neg ha, if_neg hb, if_neg hd]

/-- Witness for C2 (amended), at the token `720p`. -/
theorem c2_quality_selector_witness :
    download_quality "720p" = ("best[height<=720]", "mp4") := by
  have h := ((c2_quality_selector "720p").2.2.1 (by decide) (by decide) (by decide)
    (by decide)).2 (by decide)
  exact h.trans (by decide)

/-- Anchored literal match: does `pat` occur at the head of the second
list? -/
def leadsWith : List Char → List Char → Bool
  | [], _ => true
  | _ :: _, [] => false
  | p :: ps, c :: cs => p == c && leadsWith ps cs

/-- Substring test, modelling Python's `in` operator on strings. -/
def hasSub (pat : List Char) : List Char → Bool
  | [] => leadsWith pat []
  | c :: rest => leadsWith pat (c :: rest) || hasSub pat rest

/-- The remainder after the first occurrence of `pat`; `none` when `pat`
does not occur.  `afterFirst pat s` models `s.split(pat)[1:]` up to the
next occurrence. -/
def afterFirst (pat : List Char) : List Char → Option (List Char)
  | [] => if leadsWith pat [] then some [] else none
  | c :: rest =>
    if leadsWith pat (c :: rest) then some ((c :: rest).drop pat.length)
    else afterFirst pat rest

/-- Everything before the first occurrence of `pat` (the whole list when
`pat` does not occur): models Python's `s.split(pat)[0]`. -/
def upTo (pat : List Char) : List Char → List Char
  | [] => []
  | c :: rest =>
    if leadsWith pat (c :: rest) then []
    else c :: upTo pat rest

/-- `backend.py::VideoDownloadHandler.extract_video_id` (lines 160-169).
`none` models the uncaught `IndexError` raised by
`url.split('youtu.be/')[1]` when the URL contains `youtu.be` but not
`youtu.be/`.  `upTo pat (afterFirst pat u)` is Python's
`u.split(pat)[1]`: the segment between the first and second occurrence. -/
def extract_video_id (url : String) : Option String :=
  let u := url.data
  if hasSub "youtube.com".data u then
    if hasSub "v=".data u then
      (afterFirst "v=".data u).map fun rest =>
        String.mk (upTo "&".data (upTo "v=".data rest))
    else if hasSub "/embed/".data u then
      (afterFirst "/embed/".data u).map fun rest =>
        String.mk (upTo "?".data (upTo "/embed/".data rest))
    else some ""
  else if hasSub "youtu.be".data u then
    (afterFirst "youtu.be/".data u).map fun rest =>
      String.mk (upTo "?".data (upTo "youtu.be/".data rest))
  else some ""

/-- The character class `[^&\n?#]` of both id-extraction regexes in
`simple_backend.py`: characters allowed inside a captured video id. -/
def idChar (c : Char) : Bool :=
  !(c == '&' || c == '\n' || c == '?' || c == '#')

/-- One anchored attempt of `pat([^&\n?#]+)` at the head of `s`: the
literal followed by a nonempty greedy run of id characters. -/
def capAfter (pat : List Char) (s : List Char) : Option (List Char) :=
  if leadsWith pat s then
    let cap := (s.drop pat.length).takeWhile idChar
    if cap ≠ [] then some cap else none
  else none

/-- One anchored attempt of the first pattern of
`simple_backend.py::extract_youtube_id`
(`(?:youtube\.com/watch\?v=|youtu\.be/|youtube\.com/embed/)([^&\n?#]+)`),
trying the alternatives in order. -/
def p1At (s : List Char) : Option (List Char) :=
  match capAfter "youtube.com/watch?v=".data s with
  | some cap => some cap
  | none =>
    match capAfter "youtu.be/".data s with
    | some cap => some cap
    | none => capAfter "youtube.com/embed/".data s

/-- `re.search` scan with the first pattern: try every start position,
leftmost match wins. -/
def search1 : List Char → Option (List Char)
  | [] => none
  | c :: rest =>
    match p1At (c :: rest) with
    | some cap => some cap
    | none => search1 rest

/-- The greedy `.*v=([^&\n?#]+)` tail of the second pattern
(`youtube\.com/watch\?.*v=([^&\n?#]+)`): the rightmost `v=` reachable
without crossing a newline (`.` does not match one) whose following run
of id characters is nonempty; leftward positions serve as backtracking
fallbacks. -/
def lastVCap : List Char → Option (List Char)
  | [] => none
  | c :: rest =>
    if c == '\n' then none
    else
      match lastVCap rest with
      | some cap => some cap
      | none => capAfter "v=".data (c :: rest)

/-- One anchored attempt of the second pattern at the head of `s`. -/
def p2At (s : List Char) : Option (List Char) :=
  if leadsWith "youtube.com/watch?".data s then
    lastVCap (s.drop "youtube.com/watch?".data.length)
  else none

/-- `re.search` scan with the second pattern. -/
def search2 : List Char → Option (List Char)
  | [] => none
  | c :: rest =>
    match p2At (c :: rest) with
    | some cap => some cap
    | none => search2 rest

/-- `simple_backend.py::VideoDownloadHandler.extract_youtube_id`
(lines 105-116): try the two regular expressions in order and return the
first captured group, or `none` when neither matches anywhere. -/
def extract_youtube_id (url : String) : Option String :=
  match search1 url.data with
  | some cap => some (String.mk cap)
  | none =>
    match search2 url.data with
    | some cap => some (String.mk cap)
    | none => none

/-- A captured id stops at the end of the input or at the next character
outside the id class (`&`, `?`, `#`, or newline). -/
def idBoundary (post : List Char) : Prop :=
  post = [] ∨ ∃ d t, post = d :: t ∧ idChar d = false

theorem leadsWith_decomp : ∀ (pat s : List Char), leadsWith pat s = true →
    s = pat ++ s.drop pat.length
  | [], s, _ => by simp
  | p :: ps, [], h => by simp [leadsWith] at h
  | p :: ps, c :: cs, h => by
    simp only [leadsWith, Bool.and_eq_true, beq_iff_eq] at h
    obtain ⟨rfl, h2⟩ := h
    simpa using leadsWith_decomp ps cs h2

theorem dropWhile_head_false (p : Char → Bool) : ∀ l : List Char,
    l.dropWhile p = [] ∨ ∃ d t, l.dropWhile p = d :: t ∧ p d = false
  | [] => Or.inl rfl
  | c :: cs => by
    by_cases h : p c = true
    · rw [List.dropWhile_cons, if_pos h]
      exact dropWhile_head_false p cs
    · rw [List.dropWhile_cons, if_neg h]
      exact Or.inr ⟨c, cs, rfl, by simpa using h⟩

theorem capAfter_decomp {pat s cap : List Char} (h : capAfter pat s = some cap) :
    cap ≠ [] ∧ (∀ c ∈ cap, idChar c = true) ∧
      ∃ post, s = pat ++ (cap ++ post) ∧ idBoundary post := by
  simp only [capAfter] at h
  split at h
  next hl =>
    split at h
    next hc =>
      obtain he := Option.some.inj h
      subst he
      refine ⟨hc, fun c hcmem => List.mem_takeWhile_imp hcmem,
        (s.drop pat.length).dropWhile idChar, ?_, dropWhile_head_false idChar _⟩
      rw [List.takeWhile_append_dropWhile]
      exact leadsWith_decomp pat s hl
    next => exact absurd h (by simp)
  next => exact absurd h (by simp)

theorem p1At_decomp {s cap : List Char} (h : p1At s = some cap) :
    ∃ pat post,
      (pat = "youtube.com/watch?v=".data ∨ pat = "youtu.be/".data ∨
        pat = "youtube.com/embed/".data) ∧
      s = pat ++ (cap ++ post) ∧ cap ≠ [] ∧ (∀ c ∈ cap, idChar c = true) ∧
      idBoundary post := by
  unfold p1At at h
  split at h
  next heq =>
    obtain he := Option.some.inj h
    subst he
    obtain ⟨h1, h2, post, h3, h4⟩ := capAfter_decomp heq
    exact ⟨_, post, Or.inl rfl, h3, h1, h2, h4⟩
  next =>
    split at h
    next heq =>
      obtain he := Option.some.inj h
      subst he
      obtain ⟨h1, h2, post, h3, h4⟩ := capAfter_decomp heq
      exact ⟨_, post, Or.inr (Or.inl rfl), h3, h1, h2, h4⟩
    next =>
      obtain ⟨h1, h2, post, h3, h4⟩ := capAfter_decomp h
      exact ⟨_, post, Or.inr (Or.inr rfl), h3, h1, h2, h4⟩

theorem search1_decomp : ∀ {s cap : List Char}, search1 s = some cap →
    ∃ pre pat post,
      (pat = "youtube.com/watch?v=".data ∨ pat = "youtu.be/".data ∨
        pat = "youtube.com/embed/".data) ∧
      s = pre ++ (pat ++ (cap ++ post)) ∧ cap ≠ [] ∧
      (∀ c ∈ cap, idChar c = true) ∧ idBoundary post := by
  intro s
  induction s with
  | nil => intro cap h; simp [search1] at h
  | cons c rest ih =>
    intro cap h
    unfold search1 at h
    split at h
    next heq =>
      obtain he := Option.some.inj h
      subst he
      obtain ⟨pat, post, hp, hdec, h1, h2, h3⟩ := p1At_decomp heq
      exact ⟨[], pat, post, hp, by simpa using hdec, h1, h2, h3⟩
    next =>
      obtain ⟨pre, pat, post, hp, hdec, h1, h2, h3⟩ := ih h
      exact ⟨c :: pre, pat, post, hp, by simp [hdec], h1, h2, h3⟩

theorem lastVCap_decomp : ∀ {s cap : List Char}, lastVCap s = some cap →
    ∃ pre post, s = pre ++ ("v=".data ++ (cap ++ post)) ∧ cap ≠ [] ∧
      (∀ c ∈ cap, idChar c = true) ∧ idBoundary post := by
  intro s
  induction s with
  | nil => intro cap h; simp [lastVCap] at h
  | cons c rest ih =>
    intro cap h
    unfold lastVCap at h
    split at h
    next => exact absurd h (by simp)
    next =>
      split at h
      next heq =>
        obtain he := Option.some.inj h
        subst he
        obtain ⟨pre, post, hdec, h1, h2, h3⟩ := ih heq
        exact ⟨c :: pre, post, by simp [hdec], h1, h2, h3⟩
      next =>
        obtain ⟨h1, h2, post, hdec, h3⟩ := capAfter_decomp h
        exact ⟨[], post, by simpa using hdec, h1, h2, h3⟩

theorem p2At_decomp {s cap : List Char} (h : p2At s = some cap) :
    ∃ pre post, s = pre ++ ("v=".data ++ (cap ++ post)) ∧ cap ≠ [] ∧
      (∀ c ∈ cap, idChar c = true) ∧ idBoundary post := by
  unfold p2At at h
  split at h
  next hl =>
    obtain ⟨pre, post, hdec, h1, h2, h3⟩ := lastVCap_decomp h
    refine ⟨"youtube.com/watch?".data ++ pre, post, ?_, h1, h2, h3⟩
    conv_lhs => rw [leadsWith_decomp _ s hl]
    rw [hdec, List.append_assoc]
  next => exact absurd h (by simp)

theorem search2_decomp : ∀ {s cap : List Char}, search2 s = some cap →
    ∃ pre post, s = pre ++ ("v=".data ++ (cap ++ post)) ∧ cap ≠ [] ∧
      (∀ c ∈ cap, idChar c = true) ∧ idBoundary post := by
  intro s
  induction s with
  | nil => intro cap h; simp [search2] at h
  | cons c rest ih =>
    intro cap h
    unfold search2 at h
    split at h
    next heq =>
      obtain he := Option.some.inj h
      subst he
      obtain ⟨pre, post, hdec, h1, h2, h3⟩ := p2At_decomp heq
      exact ⟨pre, post, hdec, h1, h2, h3⟩
    next =>
      obtain ⟨pre, post, hdec, h1, h2, h3⟩ := ih h
      exact ⟨c :: pre, post, by simp [hdec], h1, h2, h3⟩

/-- C3: the regex-based Video Identifier Extraction returns, when it
matches, a nonempty identifier that directly follows one of the
recognized URL-shape markers and extends exactly to the next `&`, `?`,
`#`, or newline (or the end of the URL); when no pattern matches it
returns `none` rather than raising.  The claim's three examples hold for
the regex variant (`simple_backend.py`) and for the split-based variant
(`backend.py`) alike. -/
theorem c3_video_id_extraction :
    (∀ url vid, extract_youtube_id url = some vid →
      vid.data ≠ [] ∧ (∀ c ∈ vid.data, idChar c = true) ∧
      ∃ pre pat post,
        (pat = "youtube.com/watch?v=".data ∨ pat = "youtu.be/".data ∨
          pat = "youtube.com/embed/".data ∨ pat = "v=".data) ∧
        url.data = pre ++ (pat ++ (vid.data ++ post)) ∧ idBoundary post) ∧
    extract_youtube_id "https://www.youtube.com/watch?v=ABC123&t=5" = some "ABC123" ∧
    extract_youtube_id "https://youtu.be/XYZ789?x=1" = some "XYZ789" ∧
    extract_youtube_id "https://example.com/page" = none ∧
    extract_video_id "https://www.youtube.com/watch?v=ABC123&t=5" = some "ABC123" ∧
    extract_video_id "https://youtu.be/XYZ789?x=1" = some "XYZ789" ∧
    extract_video_id "https://example.com/page" = some "" := by
  refine ⟨?_, by decide, by decide, by decide, by decide, by decide, by decide⟩
  intro url vid h
  unfold extract_youtube_id at h
  split at h
  next heq =>
    obtain he := Option.some.inj h
    subst he
    obtain ⟨pre, pat, post, hp, hdec, h1, h2, h3⟩ := search1_decomp heq
    exact ⟨h1, h2, pre, pat, post,
      hp.imp id (fun h => h.imp id Or.inl), hdec, h3⟩
  next =>
    split at h
    next heq =>
      obtain he := Option.some.inj h
      subst he
      obtain ⟨pre, post, hdec, h1, h2, h3⟩ := search2_decomp heq
      exact ⟨h1, h2, pre, "v=".data, post,
        Or.inr (Or.inr (Or.inr rfl)), hdec, h3⟩
    next => exact absurd h (by simp)

/-- Witness for C3 at the `youtu.be` example URL. -/
theorem c3_video_id_extraction_witness :
    ("XYZ789" : String).data ≠ [] ∧
    (∀ c ∈ ("XYZ789" : String).data, idChar c = true) ∧
    ∃ pre pat post,
      (pat = "youtube.com/watch?v=".data ∨ pat = "youtu.be/".data ∨
        pat = "youtube.com/embed/".data ∨ pat = "v=".data) ∧
      ("https://youtu.be/XYZ789?x=1" : String).data =
        pre ++ (pat ++ (("XYZ789" : String).data ++ post)) ∧ idBoundary post :=
  c3_video_id_extraction.1 "https://youtu.be/XYZ789?x=1" "XYZ789" (by decide)

/-- Python's `s.replace(pat, repl)` for a pattern `p :: ps`, with explicit
fuel to keep the recursion structural (any fuel at least the input length
computes the exact result): scan left to right, replacing non-overlapping
occurrences. -/
def replaceFuel (p : Char) (ps repl : List Char) : Nat → List Char → List Char
  | 0, s => s
  | _ + 1, [] => []
  | n + 1, c :: rest =>
    if leadsWith (p :: ps) (c :: rest) then
      repl ++ replaceFuel p ps repl n (rest.drop ps.length)
    else
      c :: replaceFuel p ps repl n rest

/-- Python's `s.replace(pat, repl)` (the empty pattern is never used by
this repository; it is the identity here). -/
def pyReplace (pat repl : String) (s : List Char) : List Char :=
  match pat.data with
  | [] => s
  | p :: ps => replaceFuel p ps repl.data s.length s

/-- The two-character escape of `backend.py::generate_fallback_urls`
(line 150): `url.replace('&', '%26').replace('=', '%3D')`. -/
def pyEscape (s : List Char) : List Char :=
  pyReplace "=" "%3D" (pyReplace "&" "%26" s)

/-- Character-level description of the escape: `&` becomes `%26`, `=`
becomes `%3D`, every other character is left unchanged. -/
def specEscape (c : Char) : List Char :=
  if c = '&' then "%26".data else if c = '=' then "%3D".data else [c]

theorem replaceFuel_single (p : Char) (repl : List Char) :
    ∀ (n : Nat) (l : List Char), l.length ≤ n →
      replaceFuel p [] repl n l =
        l.flatMap fun c => if c = p then repl else [c] := by
  intro n
  induction n with
  | zero =>
    intro l hl
    rw [Nat.le_zero, List.length_eq_zero] at hl
    subst hl; rfl
  | succ n ih =>
    intro l hl
    match l with
    | [] => rfl
    | c :: rest =>
      simp only [List.length_cons, Nat.succ_le_succ_iff] at hl
      by_cases hc : p = c
      · subst hc
        have hlw : leadsWith [p] (p :: rest) = true := by simp [leadsWith]
        rw [replaceFuel, if_pos hlw, List.flatMap_cons, if_pos rfl]
        simpa using ih rest hl
      · have hlw : ¬leadsWith [p] (c :: rest) = true := by
          simp [leadsWith]; exact hc
        rw [replaceFuel, if_neg hlw, List.flatMap_cons,
          if_neg (fun h => hc h.symm)]
        simpa using ih rest hl

theorem pyEscape_flatMap (s : List Char) :
    pyEscape s = s.flatMap specEscape := by
  have h1 : pyReplace "&" "%26" s =
      s.flatMap fun c => if c = '&' then "%26".data else [c] :=
    replaceFuel_single '&' "%26".data s.length s (Nat.le_refl _)
  have h2 : pyReplace "=" "%3D" (pyReplace "&" "%26" s) =
      (pyReplace "&" "%26" s).flatMap fun c => if c = '=' then "%3D".data else [c] :=
    replaceFuel_single '=' "%3D".data _ _ (Nat.le_refl _)
  rw [pyEscape, h2, h1]
  clear h1 h2
  induction s with
  | nil => rfl
  | cons c rest ih =>
    rw [List.flatMap_cons, List.flatMap_cons, List.flatMap_append, ih]
    congr 1
    by_cases hamp : c = '&'
    · subst hamp; rfl
    · by_cases heq : c = '='
      · subst heq; rfl
      · simp [specEscape, hamp, heq]

theorem afterFirst_of_hasSub {pat : List Char} : ∀ {s : List Char},
    hasSub pat s = true → ∃ r, afterFirst pat s = some r := by
  intro s
  induction s with
  | nil =>
    intro h
    exact ⟨[], by
      unfold afterFirst
      rw [if_pos (show leadsWith pat [] = true from h)]⟩
  | cons c rest ih =>
    intro h
    unfold afterFirst
    by_cases hl : leadsWith pat (c :: rest) = true
    · exact ⟨_, by rw [if_pos hl]⟩
    · rw [if_neg hl]
      apply ih
      simp only [hasSub, Bool.or_eq_true] at h
      rcases h with h | h
      · exact absurd h hl
      · exact h

theorem extract_video_id_some {url : String}
    (h : hasSub "youtu.be".data url.data = true →
      hasSub "youtu.be/".data url.data = true) :
    ∃ vid, extract_video_id url = some vid := by
  simp only [extract_video_id]
  by_cases h1 : hasSub "youtube.com".data url.data = true
  · rw [if_pos h1]
    by_cases h2 : hasSub "v=".data url.data = true
    · rw [if_pos h2]
      obtain ⟨r, hr⟩ := afterFirst_of_hasSub h2
      rw [hr, Option.map_some']
      exact ⟨_, rfl⟩
    · rw [if_neg h2]
      by_cases h3 : hasSub "/embed/".data url.data = true
      · rw [if_pos h3]
        obtain ⟨r, hr⟩ := afterFirst_of_hasSub h3
        rw [hr, Option.map_some']
        exact ⟨_, rfl⟩
      · rw [if_neg h3]; exact ⟨"", rfl⟩
  · rw [if_neg h1]
    by_cases h4 : hasSub "youtu.be".data url.data = true
    · rw [if_pos h4]
      obtain ⟨r, hr⟩ := afterFirst_of_hasSub (h h4)
      rw [hr, Option.map_some']
      exact ⟨_, rfl⟩
    · rw [if_neg h4]; exact ⟨"", rfl⟩

/-- The fixed mapping of service names to templated URLs. -/
structure FallbackUrls where
  savefrom : String
  y2mate : String
  keepvid : String
  clipconverter : String
  onlinevideoconverter : String
deriving Repr, DecidableEq

/-- `backend.py::generate_fallback_urls` (lines 148-158); `none` models
the uncaught `IndexError` escaping from `extract_video_id`. -/
def generate_fallback_urls (url : String) : Option FallbackUrls :=
  (extract_video_id url).map fun vid =>
    { savefrom := "https://savefrom.net/#url=" ++ String.mk (pyEscape url.data)
      y2mate := "https://www.y2mate.com/youtube/" ++ vid
      keepvid := "https://keepvid.com/?url=" ++ String.mk (pyEscape url.data)
      clipconverter :=
        "https://www.clipconverter.cc/2/#url=" ++ String.mk (pyEscape url.data)
      onlinevideoconverter :=
        "https://www.onlinevideoconverter.com/success?url=" ++
          String.mk (pyEscape url.data) }

/-- Counterexample to C5 as stated: on the URL `https://youtu.be`
(which contains `youtu.be` but not `youtu.be/`), identifier derivation
raises an uncaught `IndexError` (modelled as `none`), so the Fallback URL
Generator does have a failure mode. -/
theorem c5_counterexample :
    extract_video_id "https://youtu.be" = none ∧
    generate_fallback_urls "https://youtu.be" = none := by
  constructor <;> decide

/-- C5 (amended): for every URL that does not contain `youtu.be` without
a following slash, the Fallback URL Generator returns, without error, the
fixed five-key mapping; the escape applied to the embedded URL rewrites
only `&` (to `%26`) and `=` (to `%3D`), leaving all other characters
unchanged; the identifier-dependent template embeds whatever identifier
was derived — the empty string when none could be. -/
theorem c5_fallback_generator (url : String)
    (h : hasSub "youtu.be".data url.data = true →
      hasSub "youtu.be/".data url.data = true) :
    pyEscape url.data = url.data.flatMap specEscape ∧
    ∃ vid, extract_video_id url = some vid ∧
      generate_fallback_urls url = some
        { savefrom := "https://savefrom.net/#url=" ++ String.mk (pyEscape url.data)
          y2mate := "https://www.y2mate.com/youtube/" ++ vid
          keepvid := "https://keepvid.com/?url=" ++ String.mk (pyEscape url.data)
          clipconverter :=
            "https://www.clipconverter.cc/2/#url=" ++ String.mk (pyEscape url.data)
          onlinevideoconverter :=
            "https://www.onlinevideoconverter.com/success?url=" ++
              String.mk (pyEscape url.data) } := by
  refine ⟨pyEscape_flatMap url.data, ?_⟩
  obtain ⟨vid, hv⟩ := extract_video_id_some h
  refine ⟨vid, hv, ?_⟩
  rw [generate_fallback_urls, hv, Option.map_some']

/-- Witness for C5 (amended) at a URL containing `&` and `=`. -/
theorem c5_fallback_generator_witness :
    pyEscape ("https://www.youtube.com/watch?v=ab&t=9" : String).data =
      ("https://www.youtube.com/watch?v=ab&t=9" : String).data.flatMap specEscape ∧
    ∃ vid, extract_video_id "https://www.youtube.com/watch?v=ab&t=9" = some vid ∧
      generate_fallback_urls "https://www.youtube.com/watch?v=ab&t=9" = some
        { savefrom := "https://savefrom.net/#url=" ++
            String.mk (pyEscape ("https://www.youtube.com/watch?v=ab&t=9" : String).data)
          y2mate := "https://www.y2mate.com/youtube/" ++ vid
          keepvid := "https://keepvid.com/?url=" ++
            String.mk (pyEscape ("https://www.youtube.com/watch?v=ab&t=9" : String).data)
          clipconverter := "https://www.clipconverter.cc/2/#url=" ++
            String.mk (pyEscape ("https://www.youtube.com/watch?v=ab&t=9" : String).data)
          onlinevideoconverter :=
            "https://www.onlinevideoconverter.com/success?url=" ++
              String.mk (pyEscape ("https://www.youtube.com/watch?v=ab&t=9" : String).data) } :=
  c5_fallback_generator "https://www.youtube.com/watch?v=ab&t=9" (by decide)

/-- The whitespace set stripped by Python's `str.strip()` (ASCII part). -/
def isPySpace (c : Char) : Bool :=
  c == ' ' || c == '\t' || c == '\n' || c == '\r' || c == '\x0b' || c == '\x0c'

/-- Python's `str.strip()`: drop whitespace from both ends. -/
def pyStrip (s : List Char) : List Char :=
  ((s.dropWhile isPySpace).reverse.dropWhile isPySpace).reverse

/-- One anchored attempt of `<title>([^<]+)</title>` at the head of `s`:
the literal `<title>`, a nonempty greedy run of non-`<` characters, then
the literal `</title>`. -/
def titleCapAt (s : List Char) : Option (List Char) :=
  if leadsWith "<title>".data s then
    let cap := (s.drop "<title>".data.length).takeWhile fun c => !(c == '<')
    if cap ≠ [] ∧
        leadsWith "</title>".data
          ((s.drop "<title>".data.length).drop cap.length) then
      some cap
    else none
  else none

/-- `re.search` scan with the title pattern of
`simple_backend.py::get_youtube_info` (line 134). -/
def titleSearch : List Char → Option (List Char)
  | [] => none
  | c :: rest =>
    match titleCapAt (c :: rest) with
    | some cap => some cap
    | none => titleSearch rest

/-- `simple_backend.py::get_youtube_info` (lines 118-142).  `fetch`
abstracts the watch-page download: `some html` is a successful fetch and
UTF-8 decode, `none` any exception (network error, bad body, ...), which
the bare `except:` silently downgrades to the placeholder title. -/
def get_youtube_info (videoId : String) (fetch : Option String) : String :=
  match fetch with
  | none => "Video " ++ videoId
  | some html =>
    match titleSearch html.data with
    | some cap => String.mk (pyStrip (pyReplace " - YouTube" "" cap))
    | none =>
      String.mk (pyStrip (pyReplace " - YouTube" "" ("Video " ++ videoId).data))

/-- A response of the scrape-only server (`simple_backend.py`).  Error
bodies (`send_error_response`, lines 164-170) carry exactly a
`success: false` flag and an error string — no fallback field. -/
inductive SimpleInfoResp where
  | ok (video_id title thumbnail : String) (formats : List Fmt)
  | err (error : String)
deriving Repr, DecidableEq

/-- The hardcoded format menu of `simple_backend.py::handle_video_info`
(lines 68-73). -/
def simpleFormats : List Fmt :=
  [⟨none, none, 0, some "mp3", none, some "mp3", none⟩,
   ⟨none, none, 360, some "mp4", none, some "360p", none⟩,
   ⟨none, none, 720, some "mp4", none, some "720p", none⟩,
   ⟨none, none, 1080, some "mp4", none, some "1080p", none⟩]

/-- `simple_backend.py::handle_video_info` (lines 47-77). -/
def handle_video_info (urlParam : Option String) (fetch : Option String) :
    SimpleInfoResp :=
  match urlParam with
  | none => .err "URL parameter required"
  | some url =>
    match extract_youtube_id url with
    | none => .err "Invalid YouTube URL"
    | some vid =>
      .ok vid (get_youtube_info vid fetch)
        ("https://i.ytimg.com/vi/" ++ vid ++ "/hqdefault.jpg") simpleFormats

theorem drop_len_takeWhile (p : Char → Bool) : ∀ l : List Char,
    l.drop (l.takeWhile p).length = l.dropWhile p
  | [] => rfl
  | c :: cs => by
    by_cases h : p c = true
    · simp [List.takeWhile_cons, List.dropWhile_cons, h, drop_len_takeWhile p cs]
    · simp [List.takeWhile_cons, List.dropWhile_cons, h]

theorem titleCapAt_decomp {s cap : List Char} (h : titleCapAt s = some cap) :
    cap ≠ [] ∧ (∀ c ∈ cap, (c == '<') = false) ∧
      ∃ post, s = "<title>".data ++ (cap ++ ("</title>".data ++ post)) := by
  simp only [titleCapAt] at h
  split at h
  next hl =>
    split at h
    next hc =>
      obtain he := Option.some.inj h
      have hc1 : cap ≠ [] := he ▸ hc.1
      have h2 := hc.2
      rw [drop_len_takeWhile] at h2
      refine ⟨hc1, ?_, ?_⟩
      · intro c hcm
        rw [← he] at hcm
        have := List.mem_takeWhile_imp hcm
        simpa using this
      · obtain ⟨tail, h3⟩ : ∃ tail,
            (s.drop "<title>".data.length).dropWhile (fun c => !(c == '<')) =
              "</title>".data ++ tail := ⟨_, leadsWith_decomp _ _ h2⟩
        refine ⟨tail, ?_⟩
        calc s = "<title>".data ++ s.drop "<title>".data.length :=
              leadsWith_decomp _ s hl
          _ = "<title>".data ++ (cap ++
              (s.drop "<title>".data.length).dropWhile (fun c => !(c == '<'))) := by
              rw [← he, List.takeWhile_append_dropWhile]
          _ = "<title>".data ++ (cap ++ ("</title>".data ++ tail)) := by rw [h3]
    next => exact absurd h (by simp)
  next => exact absurd h (by simp)

theorem titleSearch_decomp : ∀ {s cap : List Char}, titleSearch s = some cap →
    cap ≠ [] ∧ (∀ c ∈ cap, (c == '<') = false) ∧
      ∃ pre post, s = pre ++ ("<title>".data ++ (cap ++ ("</title>".data ++ post))) := by
  intro s
  induction s with
  | nil => intro cap h; simp [titleSearch] at h
  | cons c rest ih =>
    intro cap h
    unfold titleSearch at h
    split at h
    next heq =>
      obtain he := Option.some.inj h
      subst he
      obtain ⟨h1, h2, post, hdec⟩ := titleCapAt_decomp heq
      exact ⟨h1, h2, [], post, by simpa using hdec⟩
    next =>
      obtain ⟨h1, h2, pre, post, hdec⟩ := ih h
      exact ⟨h1, h2, c :: pre, post, by simp [hdec]⟩

/-- Counterexample to C8 as stated: the code removes every occurrence of
` - YouTube` (and trims whitespace), not just a trailing suffix. -/
theorem c8_counterexample :
    get_youtube_info "x" (some "<title>A - YouTube B - YouTube</title>") = "A B" ∧
    ("A B" : String) ≠ "A - YouTube B" := by
  constructor <;> decide

/-- C8 (amended): the scrape-path metadata lookup never propagates an
error: when the fetch fails it returns exactly `Video <id>`; when the
fetched HTML lacks the page-title marker, the placeholder `Video <id>`
goes through the same occurrence-removal of ` - YouTube` and whitespace
trim; when the marker is present, the returned title is the captured
nonempty run of non-`<` characters between `<title>` and `</title>` with
every occurrence of ` - YouTube` removed and whitespace trimmed; and in
this path the response thumbnail is always the fixed URL template keyed
by the video identifier, never discovered from the page. -/
theorem c8_scrape_metadata (vid : String) (fetch : Option String) :
    (fetch = none → get_youtube_info vid fetch = "Video " ++ vid) ∧
    (∀ html, fetch = some html →
      (titleSearch html.data = none →
        get_youtube_info vid fetch =
          String.mk (pyStrip (pyReplace " - YouTube" "" ("Video " ++ vid).data))) ∧
      (∀ cap, titleSearch html.data = some cap →
        get_youtube_info vid fetch =
          String.mk (pyStrip (pyReplace " - YouTube" "" cap)) ∧
        cap ≠ [] ∧ (∀ c ∈ cap, (c == '<') = false) ∧
        ∃ pre post, html.data =
          pre ++ ("<title>".data ++ (cap ++ ("</title>".data ++ post))))) ∧
    (∀ url vid2, extract_youtube_id url = some vid2 →
      handle_video_info (some url) fetch =
        .ok vid2 (get_youtube_info vid2 fetch)
          ("https://i.ytimg.com/vi/" ++ vid2 ++ "/hqdefault.jpg") simpleFormats) := by
  refine ⟨?_, ?_, ?_⟩
  · intro h; subst h; rfl
  · intro html h
    subst h
    constructor
    · intro hn
      simp only [get_youtube_info]
      rw [hn]
    · intro cap hc
      obtain ⟨h1, h2, pre, post, hdec⟩ := titleSearch_decomp hc
      refine ⟨?_, h1, h2, pre, post, hdec⟩
      simp only [get_youtube_info]
      rw [hc]
  · intro url vid2 h
    simp only [handle_video_info]
    rw [h]

/-- Witness for C8 (amended): a failed fetch yields the placeholder. -/
theorem c8_scrape_metadata_witness :
    get_youtube_info "abc" none = "Video " ++ "abc" :=
  (c8_scrape_metadata "abc" none).1 rfl

/-- The raw metadata record returned by the extraction oracle
(`ydl.extract_info` in `app.py`, parsed `yt-dlp --dump-json` output in
`backend.py`); `none` fields model absent keys. -/
structure RawInfo where
  title : Option String
  description : Option String
  duration : Option Int
  thumbnail : Option String
  uploader : Option String
  view_count : Option Int
  url : Option String
  formats : Option (List Fmt)
deriving Repr, DecidableEq

/-- The success body built by `backend.py::get_video_info`
(lines 84-93). -/
structure BackendInfoBody where
  title : String
  thumbnail : String
  duration : Int
  description : String
  formats : List Fmt
  success : Bool
deriving Repr, DecidableEq

def backend_video_info_body (info : RawInfo) : BackendInfoBody :=
  { title := info.title.getD "Unknown Title"
    thumbnail := info.thumbnail.getD ""
    duration := info.duration.getD 0
    description := info.description.getD ""
    formats := extract_formats (info.formats.getD [])
    success := true }

/-- A JSON body written by `backend.py::do_GET`. -/
inductive BackendBody where
  | info (body : BackendInfoBody)
  | dl (download_url : String)
  | errFallback (error : String) (fallback_urls : FallbackUrls)
  | plainErr (error : String)
deriving Repr, DecidableEq

/-- `backend.py::do_GET` routing for `/video-info` (lines 20-46): HTTP
status 200 is sent before routing, so every response — error or not —
carries status 200.  `oracle` abstracts the outcome of `get_video_info`;
`none` models the handler crashing after the headers when
`generate_fallback_urls` itself raises inside the `except` block. -/
def backend_video_info_route (url : String) (oracle : Except String RawInfo) :
    Option (Nat × BackendBody) :=
  if url ≠ "" then
    match oracle with
    | .ok info => some (200, .info (backend_video_info_body info))
    | .error e =>
      match generate_fallback_urls url with
      | some fb => some (200, .errFallback ("Failed to get video info: " ++ e) fb)
      | none => none
  else some (200, .plainErr "No URL provided")

/-- `backend.py::do_GET` routing for `/download` (lines 48-63); `oracle`
abstracts the outcome of `get_download_url`, which receives the quality
parameter. -/
def backend_download_route (url _quality : String)
    (oracle : Except String String) : Option (Nat × BackendBody) :=
  if url ≠ "" then
    match oracle with
    | .ok d => some (200, .dl d)
    | .error e =>
      match generate_fallback_urls url with
      | some fb =>
        some (200, .errFallback ("Failed to get download URL: " ++ e) fb)
      | none => none
  else some (200, .plainErr "No URL provided")

/-- The success body of `app.py::get_video_info` (lines 79-89). -/
structure AppInfoBody where
  success : Bool
  title : String
  description : String
  duration : Int
  thumbnail : String
  uploader : String
  view_count : Int
  formats : List Fmt
  url : String
deriving Repr, DecidableEq

/-- `app.py` `/info` endpoint (lines 46-92): on success the normalized
envelope, on any oracle failure `HTTPException(status_code=400)` whose
detail embeds the underlying error string. -/
def app_info_route (url : String) (oracle : Except String RawInfo) :
    Except (Nat × String) AppInfoBody :=
  match oracle with
  | .error e => .error (400, "Failed to extract info: " ++ e)
  | .ok info => .ok
    { success := true
      title := info.title.getD "Unknown"
      description := info.description.getD ""
      duration := info.duration.getD 0
      thumbnail := info.thumbnail.getD ""
      uploader := info.uploader.getD ""
      view_count := info.view_count.getD 0
      formats :=
        match info.formats with
        | none => []
        | some l => appInfoFormats l
      url := url }

/-- The success body of `app.py::stream_video_url` (lines 207-214). -/
structure StreamBody where
  success : Bool
  stream_url : String
  title : String
  duration : Int
  quality : String
  direct_download : Bool
deriving Repr, DecidableEq

/-- `app.py` `/stream` endpoint (lines 172-217): the returned media URL
is the oracle's top-level `url` field when present, else the `url` of the
last entry of a nonempty format list (`info['formats'][-1]`, with `''`
when that entry has no `url` key); with neither, the internal
`Exception('No stream URL found')` is caught by the same handler and
surfaces as a 400 error envelope. -/
def stream_route (quality : String) (oracle : Except String RawInfo) :
    Except (Nat × String) StreamBody :=
  match oracle with
  | .error e => .error (400, "Stream URL extraction failed: " ++ e)
  | .ok info =>
    match info.url with
    | some u =>
      .ok { success := true, stream_url := u, title := info.title.getD "Video",
            duration := info.duration.getD 0, quality := quality,
            direct_download := true }
    | none =>
      match info.formats with
      | some (f :: fs) =>
        .ok { success := true,
              stream_url := ((f :: fs).getLast (List.cons_ne_nil f fs)).url.getD "",
              title := info.title.getD "Video",
              duration := info.duration.getD 0, quality := quality,
              direct_download := true }
      | _ => .error (400, "Stream URL extraction failed: No stream URL found")

/-- The characters `urllib.parse.quote` leaves unescaped with the default
`safe='/'`: ASCII letters, digits, `_.-~`, and `/`. -/
def quoteSafe (c : Char) : Bool :=
  c.isAlphanum || c == '_' || c == '.' || c == '-' || c == '~' || c == '/'

/-- Upper-case hex digit of a value below 16. -/
def hexDigit (n : Nat) : Char :=
  if n < 10 then Char.ofNat ('0'.toNat + n) else Char.ofNat ('A'.toNat + (n - 10))

/-- Percent-encoding of one byte. -/
def pctByte (b : Nat) : List Char := ['%', hexDigit (b / 16), hexDigit (b % 16)]

/-- UTF-8 bytes of one character. -/
def utf8Bytes (c : Char) : List Nat :=
  let n := c.toNat
  if n < 128 then [n]
  else if n < 2048 then [192 + n / 64, 128 + n % 64]
  else if n < 65536 then [224 + n / 4096, 128 + n / 64 % 64, 128 + n % 64]
  else [240 + n / 262144, 128 + n / 4096 % 64, 128 + n / 64 % 64, 128 + n % 64]

/-- `urllib.parse.quote(s)` as used by
`simple_backend.py::generate_download_urls` (line 146). -/
def urlQuote (s : List Char) : List Char :=
  s.flatMap fun c =>
    if quoteSafe c then [c] else (utf8Bytes c).flatMap pctByte

/-- `simple_backend.py::generate_download_urls` (lines 144-162): one
vkrdownloader template, two id-dependent service links when an id is
derivable, and a second vkrdownloader template appended
unconditionally. -/
def generate_download_urls (videoUrl quality : String) : List String :=
  ["https://vkrdownloader.xyz/server/dl.php?vkr=" ++
      String.mk (urlQuote videoUrl.data) ++ "&q=" ++ quality]
  ++ (match extract_youtube_id videoUrl with
      | some vid =>
        ["https://www.y2mate.com/youtube/" ++ vid,
         "https://savefrom.net/#url=" ++ String.mk (urlQuote videoUrl.data)]
      | none => [])
  ++ ["https://vkrdownloader.xyz/server/force.php?vkr=" ++
      String.mk (urlQuote videoUrl.data) ++ "&q=" ++ quality]

/-- A `/download` response of the scrape-only server; the error form
(`send_error_response`) carries no fallback field. -/
inductive SimpleDlResp where
  | ok (download_url : Option String) (alternative_urls : List String)
      (quality : String)
  | err (error : String)
deriving Repr, DecidableEq

/-- `simple_backend.py::handle_download` (lines 79-103). -/
def handle_download (urlParam qualityParam : Option String) : SimpleDlResp :=
  match urlParam with
  | none => .err "URL parameter required"
  | some url =>
    match extract_youtube_id url with
    | none => .err "Invalid YouTube URL"
    | some _ =>
      .ok (generate_download_urls url (qualityParam.getD "720")).head?
        (generate_download_urls url (qualityParam.getD "720"))
        (qualityParam.getD "720")

theorem leadsWith_refl : ∀ l : List Char, leadsWith l l = true
  | [] => rfl
  | c :: cs => by simp [leadsWith, leadsWith_refl cs]

theorem hasSub_here {pat s : List Char} (h : leadsWith pat s = true) :
    hasSub pat s = true := by
  cases s with
  | nil => exact h
  | cons c rest => simp [hasSub, h]

theorem hasSub_extend (pre : List Char) {pat s : List Char}
    (h : hasSub pat s = true) : hasSub pat (pre ++ s) = true := by
  induction pre with
  | nil => simpa using h
  | cons c cs ih => simp [hasSub, ih]

/-- Any string occurs as a substring after any appended left context. -/
theorem hasSub_append_self (pre pat : List Char) :
    hasSub pat (pre ++ pat) = true :=
  hasSub_extend pre (hasSub_here (leadsWith_refl pat))

/-- Counterexample to C6 as stated: in the scrape-only variant a download
request whose URL yields no video identifier fails with a body carrying
only `success: false` and the error string — the `SimpleDlResp.err` form
has no fallback component at all. -/
theorem c6_counterexample :
    handle_download (some "https://example.com/clip") (some "720") =
      SimpleDlResp.err "Invalid YouTube URL" := by decide

/-- C6 (amended): in the subprocess variant (`backend.py`), every failed
download-URL generation on a provided URL (outside the
`youtu.be`-without-slash corner that crashes the fallback generator
itself) yields a body carrying both the error message and the
FallbackUrlSet; in the scrape-only variant (`simple_backend.py`),
download failures carry only `success: false` and the error string, with
no FallbackUrlSet. -/
theorem c6_download_fallbacks (url quality e : String) (hurl : url ≠ "")
    (hsafe : hasSub "youtu.be".data url.data = true →
      hasSub "youtu.be/".data url.data = true) :
    (∃ fb, backend_download_route url quality (.error e) =
        some (200, .errFallback ("Failed to get download URL: " ++ e) fb) ∧
      generate_fallback_urls url = some fb) ∧
    (∀ u q, extract_youtube_id u = none →
      handle_download (some u) q = .err "Invalid YouTube URL") := by
  constructor
  · obtain ⟨vid, hv⟩ := extract_video_id_some hsafe
    have hfb : ∃ fb, generate_fallback_urls url = some fb := by
      rw [generate_fallback_urls, hv, Option.map_some']
      exact ⟨_, rfl⟩
    obtain ⟨fb, hfb⟩ := hfb
    refine ⟨fb, ?_, hfb⟩
    simp only [backend_download_route, if_pos hurl]
    rw [hfb]
  · intro u q h
    simp only [handle_download]
    rw [h]

/-- Witness for C6 (amended) at a concrete URL and oracle failure. -/
theorem c6_download_fallbacks_witness :
    (∃ fb, backend_download_route "https://youtu.be/zz" "720"
        (.error "timeout") =
        some (200, .errFallback ("Failed to get download URL: " ++ "timeout") fb) ∧
      generate_fallback_urls "https://youtu.be/zz" = some fb) ∧
    (∀ u q, extract_youtube_id u = none →
      handle_download (some u) q = .err "Invalid YouTube URL") :=
  c6_download_fallbacks "https://youtu.be/zz" "720" "timeout" (by decide)
    (by decide)

/-- Counterexample to C7 as stated: the subprocess variant answers its
metadata endpoint with HTTP status 200 even when extraction fails —
`send_response(200)` runs before routing — so the failure does not
surface as a 4xx or 5xx status. -/
theorem c7_counterexample :
    (∃ body, backend_video_info_route "https://www.youtube.com/watch?v=abc"
        (.error "boom") = some (200, body)) ∧
    ¬(400 ≤ 200 ∧ 200 < 600) := by
  exact ⟨⟨_, rfl⟩, by omega⟩

/-- C7 (amended): in the FastAPI variant (`app.py`), metadata and stream
oracle failures surface as HTTP 400 — a client 4xx — with the underlying
error string embedded verbatim (as a substring) in the detail message; in
the subprocess variant (`backend.py`) the error body also embeds the
error string verbatim, but the HTTP status is always 200. -/
theorem c7_error_propagation (url e : String) (hurl : url ≠ "")
    (hsafe : hasSub "youtu.be".data url.data = true →
      hasSub "youtu.be/".data url.data = true) :
    (app_info_route url (.error e) =
        .error (400, "Failed to extract info: " ++ e) ∧
      400 ≤ 400 ∧ 400 < 600 ∧
      hasSub e.data ("Failed to extract info: " ++ e).data = true) ∧
    (∀ q, stream_route q (.error e) =
        .error (400, "Stream URL extraction failed: " ++ e) ∧
      hasSub e.data ("Stream URL extraction failed: " ++ e).data = true) ∧
    (∃ fb, backend_video_info_route url (.error e) =
        some (200, .errFallback ("Failed to get video info: " ++ e) fb) ∧
      hasSub e.data ("Failed to get video info: " ++ e).data = true) := by
  refine ⟨⟨rfl, by omega, by omega, ?_⟩, ?_, ?_⟩
  · rw [String.data_append]
    exact hasSub_append_self _ _
  · intro q
    refine ⟨rfl, ?_⟩
    rw [String.data_append]
    exact hasSub_append_self _ _
  · obtain ⟨vid, hv⟩ := extract_video_id_some hsafe
    have hfb : ∃ fb, generate_fallback_urls url = some fb := by
      rw [generate_fallback_urls, hv, Option.map_some']
      exact ⟨_, rfl⟩
    obtain ⟨fb, hfb⟩ := hfb
    refine ⟨fb, ?_, ?_⟩
    · simp only [backend_video_info_route, if_pos hurl]
      rw [hfb]
    · rw [String.data_append]
      exact hasSub_append_self _ _

/-- Witness for C7 (amended) at a concrete URL and error string. -/
theorem c7_error_propagation_witness :
    (app_info_route "https://youtu.be/zz" (.error "boom") =
        .error (400, "Failed to extract info: " ++ "boom") ∧
      400 ≤ 400 ∧ 400 < 600 ∧
      hasSub ("boom" : String).data
        ("Failed to extract info: " ++ "boom" : String).data = true) ∧
    (∀ q, stream_route q (.error "boom") =
        .error (400, "Stream URL extraction failed: " ++ "boom") ∧
      hasSub ("boom" : String).data
        ("Stream URL extraction failed: " ++ "boom" : String).data = true) ∧
    (∃ fb, backend_video_info_route "https://youtu.be/zz" (.error "boom") =
        some (200, .errFallback ("Failed to get video info: " ++ "boom") fb) ∧
      hasSub ("boom" : String).data
        ("Failed to get video info: " ++ "boom" : String).data = true) :=
  c7_error_propagation "https://youtu.be/zz" "boom" (by decide) (by decide)

/-- C9: for every successful stream request, the returned media URL is
the oracle's top-level `url` field when present; otherwise, when the
oracle's format list is nonempty, it is the `url` of the last entry of
that list; when neither exists, the request fails with a 400 error
envelope rather than returning a body without a stream URL. -/
theorem c9_stream_url (quality : String) (info : RawInfo) :
    (∀ u, info.url = some u →
      ∃ b, stream_route quality (.ok info) = .ok b ∧ b.stream_url = u) ∧
    (info.url = none → ∀ f fs, info.formats = some (f :: fs) →
      ∀ u, ((f :: fs).getLast (List.cons_ne_nil f fs)).url = some u →
        ∃ b, stream_route quality (.ok info) = .ok b ∧ b.stream_url = u) ∧
    (info.url = none → (info.formats = none ∨ info.formats = some []) →
      stream_route quality (.ok info) =
        .error (400, "Stream URL extraction failed: No stream URL found")) := by
  refine ⟨?_, ?_, ?_⟩
  · intro u hu
    have hb : stream_route quality (.ok info) = .ok
        { success := true, stream_url := u, title := info.title.getD "Video",
          duration := info.duration.getD 0, quality := quality,
          direct_download := true } := by
      simp only [stream_route]
      rw [hu]
    exact ⟨_, hb, rfl⟩
  · intro hn f fs hf u hu
    have hb : stream_route quality (.ok info) = .ok
        { success := true,
          stream_url := ((f :: fs).getLast (List.cons_ne_nil f fs)).url.getD "",
          title := info.title.getD "Video", duration := info.duration.getD 0,
          quality := quality, direct_download := true } := by
      simp only [stream_route]
      rw [hn, hf]
    refine ⟨_, hb, ?_⟩
    simp only
    rw [hu, Option.getD_some]
  · intro hn hf
    simp only [stream_route]
    rw [hn]
    rcases hf with hf | hf <;> rw [hf]

/-- Witness for C9: both the last-format branch and the error branch at
concrete oracle outputs. -/
theorem c9_stream_url_witness :
    (∃ b, stream_route "best"
        (.ok ⟨some "T", none, some 7, none, none, none, none,
          some [⟨none, none, 360, none, none, none, some "http://cdn/a"⟩,
                ⟨none, none, 720, none, none, none, some "http://cdn/b"⟩]⟩) =
        .ok b ∧ b.stream_url = "http://cdn/b") ∧
    stream_route "best"
        (.ok ⟨some "T", none, some 7, none, none, none, none, none⟩) =
      .error (400, "Stream URL extraction failed: No stream URL found") :=
  ⟨(c9_stream_url "best"
      ⟨some "T", none, some 7, none, none, none, none,
        some [⟨none, none, 360, none, none, none, some "http://cdn/a"⟩,
              ⟨none, none, 720, none, none, none, some "http://cdn/b"⟩]⟩).2.1
      rfl ⟨none, none, 360, none, none, none, some "http://cdn/a"⟩
      [⟨none, none, 720, none, none, none, some "http://cdn/b"⟩]
      rfl "http://cdn/b" (by decide),
   (c9_stream_url "best"
      ⟨some "T", none, some 7, none, none, none, none, none⟩).2.2 rfl
      (Or.inl rfl)⟩

/-- C10: in the scrape-only variant, for every download request whose URL
yields a video identifier, `generate_download_urls` returns exactly four
URLs (and it is never empty for any input, the two vkrdownloader
templates being appended unconditionally), so the response has success,
a non-`none` download URL equal to the first vkrdownloader template, and
four alternative URLs; the branch substituting `None` is unreachable. -/
theorem c10_download_response (url : String) (qualityParam : Option String)
    (vid : String) (h : extract_youtube_id url = some vid) :
    generate_download_urls url (qualityParam.getD "720") =
      ["https://vkrdownloader.xyz/server/dl.php?vkr=" ++
          String.mk (urlQuote url.data) ++ "&q=" ++ qualityParam.getD "720",
       "https://www.y2mate.com/youtube/" ++ vid,
       "https://savefrom.net/#url=" ++ String.mk (urlQuote url.data),
       "https://vkrdownloader.xyz/server/force.php?vkr=" ++
          String.mk (urlQuote url.data) ++ "&q=" ++ qualityParam.getD "720"] ∧
    (generate_download_urls url (qualityParam.getD "720")).length = 4 ∧
    (∀ u q, generate_download_urls u q ≠ []) ∧
    handle_download (some url) qualityParam =
      .ok (some ("https://vkrdownloader.xyz/server/dl.php?vkr=" ++
          String.mk (urlQuote url.data) ++ "&q=" ++ qualityParam.getD "720"))
        ["https://vkrdownloader.xyz/server/dl.php?vkr=" ++
            String.mk (urlQuote url.data) ++ "&q=" ++ qualityParam.getD "720",
         "https://www.y2mate.com/youtube/" ++ vid,
         "https://savefrom.net/#url=" ++ String.mk (urlQuote url.data),
         "https://vkrdownloader.xyz/server/force.php?vkr=" ++
            String.mk (urlQuote url.data) ++ "&q=" ++ qualityParam.getD "720"]
        (qualityParam.getD "720") := by
  have hurls : generate_download_urls url (qualityParam.getD "720") =
      ["https://vkrdownloader.xyz/server/dl.php?vkr=" ++
          String.mk (urlQuote url.data) ++ "&q=" ++ qualityParam.getD "720",
       "https://www.y2mate.com/youtube/" ++ vid,
       "https://savefrom.net/#url=" ++ String.mk (urlQuote url.data),
       "https://vkrdownloader.xyz/server/force.php?vkr=" ++
          String.mk (urlQuote url.data) ++ "&q=" ++ qualityParam.getD "720"] := by
    simp only [generate_download_urls]
    rw [h]
    rfl
  refine ⟨hurls, by rw [hurls]; rfl, ?_, ?_⟩
  · intro u q
    cases hm : extract_youtube_id u <;>
      simp [generate_download_urls, hm]
  · simp only [handle_download]
    rw [h, hurls]
    rfl

/-- Witness for C10 at a concrete URL. -/
theorem c10_download_response_witness :
    generate_download_urls "https://youtu.be/abc" ((none : Option String).getD "720") =
      ["https://vkrdownloader.xyz/server/dl.php?vkr=" ++
          String.mk (urlQuote ("https://youtu.be/abc" : String).data) ++ "&q=" ++
          (none : Option String).getD "720",
       "https://www.y2mate.com/youtube/" ++ "abc",
       "https://savefrom.net/#url=" ++
          String.mk (urlQuote ("https://youtu.be/abc" : String).data),
       "https://vkrdownloader.xyz/server/force.php?vkr=" ++
          String.mk (urlQuote ("https://youtu.be/abc" : String).data) ++ "&q=" ++
          (none : Option String).getD "720"] ∧
    (generate_download_urls "https://youtu.be/abc"
        ((none : Option String).getD "720")).length = 4 ∧
    (∀ u q, generate_download_urls u q ≠ []) ∧
    handle_download (some "https://youtu.be/abc") none =
      .ok (some ("https://vkrdownloader.xyz/server/dl.php?vkr=" ++
          String.mk (urlQuote ("https://youtu.be/abc" : String).data) ++ "&q=" ++
          (none : Option String).getD "720"))
        ["https://vkrdownloader.xyz/server/dl.php?vkr=" ++
            String.mk (urlQuote ("https://youtu.be/abc" : String).data) ++ "&q=" ++
            (none : Option String).getD "720",
         "https://www.y2mate.com/youtube/" ++ "abc",
         "https://savefrom.net/#url=" ++
            String.mk (urlQuote ("https://youtu.be/abc" : String).data),
         "https://vkrdownloader.xyz/server/force.php?vkr=" ++
            String.mk (urlQuote ("https://youtu.be/abc" : String).data) ++ "&q=" ++
            (none : Option String).getD "720"]
        ((none : Option String).getD "720") :=
  c10_download_response "https://youtu.be/abc" none "abc" (by decide)

end AAVD
